import Mathlib

/-!
Verification of the flo session/token coordination layer and LAN codec.

Shallow embedding of:
- `crates/lan/src/game_info/mod.rs` (`GameInfo::encode_to_bytes` / `GameInfo::decode_bytes`)
- `crates/node/src/session/mod.rs` (`SessionStore::handle_controller_create_game`,
  `PendingPlayerRegistry::register`, `GameRegistryGuard::pre_check` / `register`)
- `crates/lobby/src/connect/mod.rs` (`handle_stream` connection loop)
-/

namespace Flo

/-! ### Decimal strings

Model of Rust's integer `Display` (`format!("{}", n)`) and `str::parse::<uN>()`
for unsigned integers.  `format!` renders the decimal digits most significant
first, with `"0"` for zero; `parse` accepts an optional leading `+`, requires
at least one ASCII digit, and fails when the value exceeds the type's maximum.
-/

/-- Value of one ASCII decimal digit, `none` for any other character. -/
def charToDigit (c : Char) : Option Nat :=
  if '0' ≤ c ∧ c ≤ '9' then some (c.toNat - 48) else none

/-- Left fold of decimal digits onto an accumulator; fails at the first
non-digit character. -/
def decDigitsVal : Nat → List Char → Option Nat
  | acc, [] => some acc
  | acc, c :: cs =>
    match charToDigit c with
    | some d => decDigitsVal (acc * 10 + d) cs
    | none => none

/-- Model of `str::parse::<uN>()` before the range check: optional leading
`+`, then one or more decimal digits. -/
def parseNat (s : String) : Option Nat :=
  let cs := if s.data.head? = some '+' then s.data.tail else s.data
  if cs.isEmpty then none else decDigitsVal 0 cs

/-- Model of `str::parse` for a bounded unsigned type with maximum `max`. -/
def parseNatLE (max : Nat) (s : String) : Option Nat :=
  (parseNat s).bind fun n => if n ≤ max then some n else none

/-- Model of `format!("{}", n)` for an unsigned integer: decimal digits, most
significant first, `"0"` for zero. -/
def natToDecString (n : Nat) : String :=
  if n = 0 then "0" else ⟨(Nat.digits 10 n).reverse.map Nat.digitChar⟩

theorem charToDigit_digitChar {d : Nat} (hd : d < 10) :
    charToDigit (Nat.digitChar d) = some d := by
  interval_cases d <;> decide

theorem digitChar_ne_plus {d : Nat} (hd : d < 10) : Nat.digitChar d ≠ '+' := by
  interval_cases d <;> decide

theorem decDigitsVal_map (l : List Nat) (h : ∀ d ∈ l, d < 10) (acc : Nat) :
    decDigitsVal acc (l.map Nat.digitChar) =
      some (l.foldl (fun a d => a * 10 + d) acc) := by
  induction l generalizing acc with
  | nil => rfl
  | cons d t ih =>
    have hd : d < 10 := h d (List.mem_cons_self _ _)
    have ht : ∀ x ∈ t, x < 10 := fun x hx => h x (List.mem_cons_of_mem _ hx)
    simp [decDigitsVal, charToDigit_digitChar hd, ih ht]

theorem foldl_dec_eq_ofDigits (l : List Nat) (acc : Nat) :
    l.foldl (fun a d => a * 10 + d) acc =
      acc * 10 ^ l.length + Nat.ofDigits 10 l.reverse := by
  induction l generalizing acc with
  | nil => simp [Nat.ofDigits]
  | cons d t ih =>
    have happ : Nat.ofDigits 10 (t.reverse ++ [d]) =
        Nat.ofDigits 10 t.reverse + 10 ^ t.reverse.length * Nat.ofDigits 10 [d] :=
      Nat.ofDigits_append
    simp only [List.foldl_cons, ih, List.reverse_cons, happ, Nat.ofDigits_cons,
      Nat.ofDigits_nil, List.length_reverse, List.length_cons]
    ring

theorem parseNat_natToDecString (n : Nat) : parseNat (natToDecString n) = some n := by
  by_cases h0 : n = 0
  · subst h0; rfl
  · have hne : Nat.digits 10 n ≠ [] := Nat.digits_ne_nil_iff_ne_zero.mpr h0
    have hlt : ∀ d ∈ Nat.digits 10 n, d < 10 :=
      fun d hd => Nat.digits_lt_base (by norm_num) hd
    obtain ⟨d, t, hdt⟩ := List.exists_cons_of_ne_nil (List.reverse_ne_nil_iff.mpr hne)
    have hmem : ∀ x ∈ (Nat.digits 10 n).reverse, x < 10 :=
      fun x hx => hlt x (List.mem_reverse.mp hx)
    have hd10 : d < 10 := hmem d (by simp [hdt])
    unfold natToDecString parseNat
    simp only [if_neg h0]
    rw [hdt, List.map_cons]
    rw [if_neg (show ¬ (Nat.digitChar d :: t.map Nat.digitChar).head? = some '+' by
      simp [digitChar_ne_plus hd10])]
    rw [if_neg (show ¬ ((Nat.digitChar d :: t.map Nat.digitChar).isEmpty = true) by simp)]
    rw [show Nat.digitChar d :: t.map Nat.digitChar = (d :: t).map Nat.digitChar from rfl]
    rw [decDigitsVal_map (d :: t) (hdt ▸ hmem) 0]
    rw [foldl_dec_eq_ofDigits]
    rw [← hdt, List.reverse_reverse, Nat.ofDigits_digits]
    simp

theorem parseNatLE_natToDecString {max n : Nat} (h : n ≤ max) :
    parseNatLE max (natToDecString n) = some n := by
  simp [parseNatLE, parseNat_natToDecString, h]

/-! ### Base64

Model of the `base64` crate's standard alphabet with `=` padding, as used by
`base64::encode` / `base64::decode` in `crates/lan/src/game_info/mod.rs`.
Bytes are natural numbers below 256.
-/

/-- The standard base64 alphabet. -/
def b64Alphabet : List Char :=
  "ABCDEFGHIJKLMNOPQRSTUVWXYZabcdefghijklmnopqrstuvwxyz0123456789+/".data

/-- Character for a sextet value. -/
def b64Char (n : Nat) : Char := b64Alphabet.getD n 'A'

/-- Sextet value of a character, `none` for characters outside the alphabet. -/
def b64Val (c : Char) : Option Nat :=
  let i := b64Alphabet.indexOf c
  if i < 64 then some i else none

/-- Model of `base64::encode`: three bytes become four sextet characters, a
final one- or two-byte group is padded with `=`. -/
def b64Encode : List Nat → List Char
  | [] => []
  | [a] => [b64Char (a / 4), b64Char (a % 4 * 16), '=', '=']
  | [a, b] => [b64Char (a / 4), b64Char (a % 4 * 16 + b / 16), b64Char (b % 16 * 4), '=']
  | a :: b :: c :: rest =>
    b64Char (a / 4) :: b64Char (a % 4 * 16 + b / 16) :: b64Char (b % 16 * 4 + c / 64) ::
      b64Char (c % 64) :: b64Encode rest

/-- Model of `base64::decode`: four characters at a time, `=` padding allowed
only in the final group. -/
def b64Decode : List Char → Option (List Nat)
  | [] => some []
  | c1 :: c2 :: c3 :: c4 :: rest =>
    match b64Val c1, b64Val c2 with
    | some v1, some v2 =>
      if c3 = '=' then
        if c4 = '=' ∧ rest = [] then some [v1 * 4 + v2 / 16] else none
      else
        match b64Val c3 with
        | some v3 =>
          if c4 = '=' then
            if rest = [] then some [v1 * 4 + v2 / 16, v2 % 16 * 16 + v3 / 4] else none
          else
            match b64Val c4 with
            | some v4 =>
              (b64Decode rest).map
                (fun tl =>
                  (v1 * 4 + v2 / 16) :: (v2 % 16 * 16 + v3 / 4) :: (v3 % 4 * 64 + v4) :: tl)
            | none => none
        | none => none
    | _, _ => none
  | _ => none

theorem b64Val_b64Char_fin : ∀ s : Fin 64, b64Val (b64Char s.val) = some s.val := by
  decide

theorem b64Char_ne_pad_fin : ∀ s : Fin 64, b64Char s.val ≠ '=' := by
  decide

theorem b64Val_b64Char {s : Nat} (h : s < 64) : b64Val (b64Char s) = some s :=
  b64Val_b64Char_fin ⟨s, h⟩

theorem b64Char_ne_pad {s : Nat} (h : s < 64) : b64Char s ≠ '=' :=
  b64Char_ne_pad_fin ⟨s, h⟩

theorem b64Decode_b64Encode (bs : List Nat) (h : ∀ x ∈ bs, x < 256) :
    b64Decode (b64Encode bs) = some bs := by
  induction bs using b64Encode.induct with
  | case1 => simp [b64Encode, b64Decode]
  | case2 a =>
    have ha : a < 256 := h a (by simp)
    have h1 : a / 4 < 64 := by omega
    have h2 : a % 4 * 16 < 64 := by omega
    simp [b64Encode, b64Decode, b64Val_b64Char h1, b64Val_b64Char h2]
    omega
  | case3 a b =>
    have ha : a < 256 := h a (by simp)
    have hb : b < 256 := h b (by simp)
    have h1 : a / 4 < 64 := by omega
    have h2 : a % 4 * 16 + b / 16 < 64 := by omega
    have h3 : b % 16 * 4 < 64 := by omega
    have hne3 : b64Char (b % 16 * 4) ≠ '=' := b64Char_ne_pad h3
    simp [b64Encode, b64Decode, b64Val_b64Char h1, b64Val_b64Char h2,
      b64Val_b64Char h3, hne3]
    omega
  | case4 a b c rest ih =>
    have ha : a < 256 := h a (by simp)
    have hb : b < 256 := h b (by simp)
    have hc : c < 256 := h c (by simp)
    have hrest : ∀ x ∈ rest, x < 256 := fun x hx => h x (by simp [hx])
    have h1 : a / 4 < 64 := by omega
    have h2 : a % 4 * 16 + b / 16 < 64 := by omega
    have h3 : b % 16 * 4 + c / 64 < 64 := by omega
    have h4 : c % 64 < 64 := by omega
    have hne3 : b64Char (b % 16 * 4 + c / 64) ≠ '=' := b64Char_ne_pad h3
    have hne4 : b64Char (c % 64) ≠ '=' := b64Char_ne_pad h4
    simp [b64Encode, b64Decode, b64Val_b64Char h1, b64Val_b64Char h2,
      b64Val_b64Char h3, b64Val_b64Char h4, hne3, hne4, ih hrest]
    omega

/-! ### LAN game-announcement codec (`crates/lan/src/game_info/mod.rs`)

The hybrid codec: a protobuf message whose `entries` key-value list carries
the canonical fields, with `game_data` a base64-encoded binary payload.
The prost serialization of the structured message to raw bytes is an
external collaborator and is modelled from the spec as the identity on the
structured message (spec section 6 treats it as "a general-purpose
structured encoding" at the boundary).
-/

/-- Modelled from the spec: the `game_data` entry is an opaque
"base64-encoded fixed-binary payload"; the field-level binary codec
(`BinEncode`/`BinDecode` over name, settings, slots, flags, port) lives in
the `flo_util`/`flo_w3gs` crates, which are not under review, so a
`GameData` value is modelled by its binary image (bytes below 256). -/
structure GameData where
  bytes : List Nat
deriving DecidableEq, Repr

/-- Model of the derived `GameData::encode_to_bytes`. -/
def GameData.encode_to_bytes (d : GameData) : List Nat := d.bytes

/-- Model of the derived `GameData::decode`; total because a `GameData`
value is identified with its binary image. -/
def GameData.decode (bs : List Nat) : GameData := ⟨bs⟩

/-- A `std::time::SystemTime`, as a signed count of nanoseconds relative to
the UNIX epoch. -/
structure SystemTime where
  ns : Int
deriving DecidableEq, Repr

/-- `SystemTime::UNIX_EPOCH`. -/
def unixEpoch : SystemTime := ⟨0⟩

/-- Model of `t.duration_since(SystemTime::UNIX_EPOCH).map(|d| d.as_secs())`:
fails exactly when `t` is strictly earlier than the epoch, otherwise yields
whole seconds with the sub-second part truncated. -/
def SystemTime.secsSinceEpoch? (t : SystemTime) : Option Nat :=
  if t.ns < 0 then none else some (t.ns.toNat / 1000000000)

/-- Model of `SystemTime::UNIX_EPOCH.checked_add(Duration::from_secs(n))`.
The platform representable-range check is modelled as always succeeding;
the codec feeds it only values already bounded by the `u64` parse. -/
def epochPlusSecs (n : Nat) : Option SystemTime := some ⟨(n : Int) * 1000000000⟩

/-- Error type of the `flo-lan` crate, restricted to the variants the
`GameInfo` codec can produce. -/
inductive LanError
  | invalidGameInfo (msg : String)
  | base64Error
  | protoError
deriving DecidableEq, Repr

/-- One `proto::GameInfoEntry` key-value pair. -/
structure ProtoGameInfoEntry where
  key : String
  value : String
deriving DecidableEq, Repr

/-- The structured protobuf message `proto::GameInfo`. -/
structure ProtoGameInfo where
  name : String
  message_id : Int
  entries : List ProtoGameInfoEntry
deriving DecidableEq, Repr

/-- The `GameInfo` struct.  `name` is the content of the `CString` field;
the claims under verification restrict it to valid UTF-8 without interior
null bytes, on which `String::from_utf8_lossy` is the identity, so it is
modelled as the text itself.  `secret` is a `u32`, `players_num` and
`players_max` are `u8`. -/
structure GameInfo where
  message_id : Int
  game_id : String
  create_time : SystemTime
  secret : Nat
  name : String
  players_num : Nat
  players_max : Nat
  data : GameData
deriving DecidableEq, Repr

/-- `GameInfo::encode_to_bytes`, up to the final prost byte serialization
(modelled as the identity on the structured message). -/
def GameInfo.encode_to_bytes (g : GameInfo) : Except LanError ProtoGameInfo :=
  let data := String.mk (b64Encode g.data.encode_to_bytes)
  match g.create_time.secsSinceEpoch? with
  | none => .error (.invalidGameInfo "encode: invalid create_time")
  | some create_time =>
    let name_utf8 := g.name
    .ok {
      name := name_utf8
      message_id := g.message_id
      entries := [
        ⟨"players_num", natToDecString g.players_num⟩,
        ⟨"_name", name_utf8⟩,
        ⟨"players_max", natToDecString g.players_max⟩,
        ⟨"game_create_time", natToDecString create_time⟩,
        ⟨"_type", natToDecString 1⟩,
        ⟨"_subtype", natToDecString 0⟩,
        ⟨"game_secret", natToDecString g.secret⟩,
        ⟨"game_data", data⟩,
        ⟨"game_id", g.game_id⟩,
        ⟨"_flags", natToDecString 0⟩]
    }

/-- Lookup in the `HashMap` built by `entries.iter().map(..).collect()`:
on duplicate keys the last entry wins. -/
def entriesGet (entries : List ProtoGameInfoEntry) (k : String) : Option String :=
  (entries.reverse.find? (fun e => e.key == k)).map (fun e => e.value)

/-- Lift an `Option` into the codec's `Except`, with the error used when
the value is absent. -/
def ofOption {α : Type} (o : Option α) (e : LanError) : Except LanError α :=
  match o with
  | some a => .ok a
  | none => .error e

/-- `GameInfo::decode_bytes`, after the prost parse of the byte buffer into
the structured message (modelled as the identity). -/
def GameInfo.decode_bytes (m : ProtoGameInfo) : Except LanError GameInfo := do
  let data_b64 ← ofOption (entriesGet m.entries "game_data")
    (.invalidGameInfo "no `game_data` entry")
  let data_bytes ← ofOption (b64Decode data_b64.data) .base64Error
  let game_data := GameData.decode data_bytes
  let game_id ← ofOption (entriesGet m.entries "game_id")
    (.invalidGameInfo "no `game_id` entry")
  let game_secret ← ofOption (entriesGet m.entries "game_secret")
    (.invalidGameInfo "no `game_secret` entry")
  let secret ← ofOption (parseNatLE 4294967295 game_secret)
    (.invalidGameInfo "invalid game_secret")
  let ct_str ← ofOption (entriesGet m.entries "game_create_time")
    (.invalidGameInfo "no `game_create_time` entry")
  let game_create_time ← ofOption (parseNatLE 18446744073709551615 ct_str)
    (.invalidGameInfo "invalid game create timestamp: invalid format")
  let create_time ← ofOption (epochPlusSecs game_create_time)
    (.invalidGameInfo "invalid game create timestamp: overflow")
  let name ← if m.name.data.contains (Char.ofNat 0)
    then Except.error (LanError.invalidGameInfo "name contains null byte")
    else Except.ok m.name
  let pn_str ← ofOption (entriesGet m.entries "players_num")
    (.invalidGameInfo "no `players_num` entry")
  let players_num ← ofOption (parseNatLE 255 pn_str)
    (.invalidGameInfo "invalid `players_num`")
  let pm_str ← ofOption (entriesGet m.entries "players_max")
    (.invalidGameInfo "no `players_max` entry")
  let players_max ← ofOption (parseNatLE 255 pm_str)
    (.invalidGameInfo "invalid `players_max`")
  .ok {
    message_id := m.message_id
    game_id := game_id
    name := name
    players_num := players_num
    players_max := players_max
    secret := secret
    create_time := create_time
    data := game_data
  }

theorem ofOption_some {α : Type} (a : α) (e : LanError) : ofOption (some a) e = .ok a := rfl

theorem exceptBind_ok {ε α β : Type} (a : α) (f : α → Except ε β) :
    (Except.ok a >>= f : Except ε β) = f a := rfl

/-- Each canonical key looks up its own value in the entry list produced by
`encode_to_bytes`, for arbitrary values. -/
theorem entriesGet_encoded (pn nm pm ct ty sub sec dat gid fl : String) :
    let es : List ProtoGameInfoEntry :=
      [⟨"players_num", pn⟩, ⟨"_name", nm⟩, ⟨"players_max", pm⟩,
       ⟨"game_create_time", ct⟩, ⟨"_type", ty⟩, ⟨"_subtype", sub⟩,
       ⟨"game_secret", sec⟩, ⟨"game_data", dat⟩, ⟨"game_id", gid⟩, ⟨"_flags", fl⟩]
    entriesGet es "game_data" = some dat ∧ entriesGet es "game_id" = some gid ∧
      entriesGet es "game_secret" = some sec ∧
      entriesGet es "game_create_time" = some ct ∧
      entriesGet es "players_num" = some pn ∧ entriesGet es "players_max" = some pm :=
  ⟨rfl, rfl, rfl, rfl, rfl, rfl⟩

/-- C10: `GameInfo::encode_to_bytes` returns an error exactly when
`create_time` is strictly earlier than the UNIX epoch, and that error is the
`InvalidGameInfo` create-time error; for any `create_time` at or after the
epoch, encoding succeeds. -/
theorem c10_encode_err_iff_create_time_before_epoch (g : GameInfo) :
    ((∃ e, g.encode_to_bytes = Except.error e) ↔ g.create_time.ns < 0) ∧
    (g.encode_to_bytes =
        Except.error (.invalidGameInfo "encode: invalid create_time") ↔
      g.create_time.ns < 0) := by
  unfold GameInfo.encode_to_bytes SystemTime.secsSinceEpoch?
  by_cases h : g.create_time.ns < 0
  · simp [h]
  · simp [h]

/-- C4: round-trip of the LAN game-announcement codec.  For every `GameInfo`
whose name has no interior null byte (valid UTF-8 is built into the model of
the `CString` content), whose `create_time` is a whole number of seconds at
or after the UNIX epoch (and within the `u64` seconds range the wire field
carries), and whose numeric fields respect their machine widths,
`decode_bytes` after `encode_to_bytes` succeeds and reproduces the value on
all canonical fields. -/
theorem c4_encode_decode_round_trip (g : GameInfo)
    (hname : Char.ofNat 0 ∉ g.name.data)
    (hepoch : 0 ≤ g.create_time.ns)
    (hwhole : g.create_time.ns % 1000000000 = 0)
    (hrepr : g.create_time.ns < 18446744073709551616 * 1000000000)
    (hsecret : g.secret < 4294967296)
    (hpn : g.players_num < 256)
    (hpm : g.players_max < 256)
    (hdata : ∀ x ∈ g.data.bytes, x < 256) :
    ∃ m, g.encode_to_bytes = Except.ok m ∧ GameInfo.decode_bytes m = Except.ok g := by
  have hct : g.create_time.secsSinceEpoch? =
      some (g.create_time.ns.toNat / 1000000000) := by
    simp [SystemTime.secsSinceEpoch?, not_lt.mpr hepoch]
  set ct := g.create_time.ns.toNat / 1000000000 with hctdef
  refine ⟨{ name := g.name, message_id := g.message_id, entries :=
      [⟨"players_num", natToDecString g.players_num⟩,
       ⟨"_name", g.name⟩,
       ⟨"players_max", natToDecString g.players_max⟩,
       ⟨"game_create_time", natToDecString ct⟩,
       ⟨"_type", natToDecString 1⟩,
       ⟨"_subtype", natToDecString 0⟩,
       ⟨"game_secret", natToDecString g.secret⟩,
       ⟨"game_data", String.mk (b64Encode g.data.bytes)⟩,
       ⟨"game_id", g.game_id⟩,
       ⟨"_flags", natToDecString 0⟩] }, ?_, ?_⟩
  · unfold GameInfo.encode_to_bytes
    rw [hct]
    rfl
  · obtain ⟨e1, e2, e3, e4, e5, e6⟩ := entriesGet_encoded
      (natToDecString g.players_num) g.name (natToDecString g.players_max)
      (natToDecString ct) (natToDecString 1) (natToDecString 0)
      (natToDecString g.secret) (String.mk (b64Encode g.data.bytes)) g.game_id
      (natToDecString 0)
    have hcontains : g.name.data.contains (Char.ofNat 0) = false := by
      simpa using hname
    have hctle : ct ≤ 18446744073709551615 := by omega
    have hdatastr : (String.mk (b64Encode g.data.bytes)).data
        = b64Encode g.data.bytes := rfl
    have hcreate : ((ct : Int) * 1000000000) = g.create_time.ns := by omega
    unfold GameInfo.decode_bytes
    rw [e1]
    simp only [ofOption_some, exceptBind_ok, hdatastr,
      b64Decode_b64Encode g.data.bytes hdata, e2, e3, e4, e5, e6,
      parseNatLE_natToDecString (Nat.le_of_lt_succ hsecret),
      parseNatLE_natToDecString hctle,
      parseNatLE_natToDecString (Nat.le_of_lt_succ hpn),
      parseNatLE_natToDecString (Nat.le_of_lt_succ hpm),
      epochPlusSecs, hcontains, Bool.false_eq_true, if_false]
    simp only [GameData.decode, Except.ok.injEq, GameInfo.mk.injEq]
    rw [hcreate]

/-- A concrete `GameInfo` instantiating the round-trip theorem. -/
def sampleGameInfo : GameInfo :=
  { message_id := 1, game_id := "42", create_time := ⟨5000000000⟩, secret := 7,
    name := "flo", players_num := 2, players_max := 8, data := ⟨[0, 1, 255]⟩ }

/-- Witness for the round-trip theorem at `sampleGameInfo`. -/
theorem c4_encode_decode_round_trip_witness :
    ∃ m, sampleGameInfo.encode_to_bytes = Except.ok m ∧
      GameInfo.decode_bytes m = Except.ok sampleGameInfo :=
  c4_encode_decode_round_trip sampleGameInfo (by decide) (by decide) (by decide)
    (by decide) (by decide) (by decide) (by decide) (by decide)

/-! ### Node session store (`crates/node/src/session/mod.rs`)

The create-game protocol handler and its two registries.  `HashMap`s are
modelled as association lists with map semantics; the `parking_lot` lock
scopes serialize the handler, so the handler is a pure function from the
store (plus the metrics counters) to the result and the updated store.
-/

/-- Modelled from the spec: a `PlayerToken` (`types.rs`, not under src/) is
an opaque fixed-size random value, equality- and hash-comparable, generated
fresh per pending registration; represented by a natural number, freshness
being supplied by the caller. -/
abbrev PlayerToken := Nat

/-- `PendingPlayer` (`types.rs`, modelled from the spec): the pending record
a token authorizes. -/
structure PendingPlayer where
  player_id : Int
  game_id : Int
deriving DecidableEq, Repr

/-- Association-list model of `HashMap` lookup (`get` / `contains_key`). -/
def alookup {α β : Type} [DecidableEq α] (m : List (α × β)) (k : α) : Option β :=
  (m.find? (fun p => decide (p.1 = k))).map (fun p => p.2)

/-- Association-list model of `HashMap::insert`: replaces any existing
binding of the key. -/
def ainsert {α β : Type} [DecidableEq α] (m : List (α × β)) (k : α) (v : β) :
    List (α × β) :=
  (k, v) :: m.filter (fun p => decide (p.1 ≠ k))

/-- Association-list model of `HashMap::remove`, dropping the binding (the
removed value is read separately with `alookup`). -/
def aerase {α β : Type} [DecidableEq α] (m : List (α × β)) (k : α) :
    List (α × β) :=
  m.filter (fun p => decide (p.1 ≠ k))

theorem alookup_ainsert {α β : Type} [DecidableEq α]
    (m : List (α × β)) (k : α) (v : β) : alookup (ainsert m k v) k = some v := by
  simp [alookup, ainsert, List.find?]

/-- The two global counters the session code touches (`metrics.rs` is not
under src/; a counter is modelled as a plain integer). -/
structure Metrics where
  game_sessions : Int
  pending_player_tokens : Int
deriving DecidableEq, Repr

/-- `PendingPlayerRegistry`: the token-to-pending-record map and the
player-to-token index, locked together in the source. -/
structure PendingPlayerRegistry where
  map : List (PlayerToken × PendingPlayer)
  player_token : List (Int × PlayerToken)
deriving DecidableEq, Repr

/-- `PendingPlayerRegistry::new`. -/
def PendingPlayerRegistry.new : PendingPlayerRegistry := ⟨[], []⟩

/-- One iteration of the `for (token, player) in pairs` loop of
`PendingPlayerRegistry::register`, mirroring the source exactly: the entry
logic runs only under the `contains_key` guard, and the `Entry::Vacant` arm
(token insert plus `PENDING_PLAYER_TOKENS` increment) is kept although the
guard makes it unreachable. -/
def registerStep (r : PendingPlayerRegistry) (m : Metrics)
    (stale : List PendingPlayer) (token : PlayerToken) (player : PendingPlayer) :
    PendingPlayerRegistry × Metrics × List PendingPlayer :=
  let player_id := player.player_id
  let entry :=
    if (alookup r.player_token player_id).isSome then
      match alookup r.player_token player_id with
      | some prev_token =>
        (alookup r.map prev_token,
         { r with player_token := ainsert r.player_token player_id token,
                  map := aerase r.map prev_token }, m)
      | none =>
        (none,
         { r with player_token := ainsert r.player_token player_id token },
         { m with pending_player_tokens := m.pending_player_tokens + 1 })
    else (none, r, m)
  let r2 := { entry.2.1 with map := ainsert entry.2.1.map token player }
  match entry.1 with
  | some p => (r2, entry.2.2, stale ++ [p])
  | none => (r2, entry.2.2, stale)

/-- `PendingPlayerRegistry::register`: fold of `registerStep` over the
freshly minted pairs, returning the updated registry, the updated counters
and the evicted stale pending players. -/
def PendingPlayerRegistry.register (r : PendingPlayerRegistry) (m : Metrics)
    (pairs : List (PlayerToken × PendingPlayer)) :
    PendingPlayerRegistry × Metrics × List PendingPlayer :=
  pairs.foldl (fun acc pair => registerStep acc.1 acc.2.1 acc.2.2 pair.1 pair.2)
    (r, m, [])

/-- Modelled from the spec: statuses observed by this core are `Created`
(fresh, overwritable) and non-`Created` states (treated as "already
exists"); two representative non-`Created` states are included. -/
inductive GameStatus
  | Created
  | Running
  | Ended
deriving DecidableEq, Repr

/-- A player bound to a slot in the proto `Game` descriptor. -/
structure SlotPlayer where
  player_id : Int
deriving DecidableEq, Repr

/-- A slot of the proto `Game` descriptor, optionally bound to a player. -/
structure Slot where
  player : Option SlotPlayer
deriving DecidableEq, Repr

/-- The proto `Game` descriptor carried by `PacketControllerCreateGame`. -/
structure Game where
  id : Int
  slots : List Slot
deriving DecidableEq, Repr

/-- `GameSession` (`types.rs`, modelled from the spec): the authoritative
per-game state `{game_id, status, slot/player associations}`; built from a
descriptor in status `Created` (`GameSession::new`). -/
structure GameSession where
  game_id : Int
  status : GameStatus
  slots : List Slot
deriving DecidableEq, Repr

/-- `GameSession::new` (modelled from the spec: a session fresh from a
descriptor carries status `Created`). -/
def GameSession.new (g : Game) : GameSession := ⟨g.id, GameStatus.Created, g.slots⟩

/-- Error variants of the node crate reachable from the create-game path
(`error.rs` of the node crate is not under src/; variants modelled from the
spec and their uses in `session/mod.rs`). -/
inductive NodeError
  | NoPlayer
  | PlayerBusy (player_id : Int)
  | GameExists
  | PacketFieldNotSet
deriving DecidableEq, Repr

/-- `ControllerCreateGameRejectReason`, restricted to the reasons the
handler emits. -/
inductive CreateGameRejectReason
  | GameExists
  | PlayerBusy
deriving DecidableEq, Repr

/-- The response frame of the create-game handler (the packet structs
passed to `encode_as_frame`, modelled structurally). -/
inductive NodeFrame
  | createGameAccept (game_id : Int) (player_tokens : List (Int × PlayerToken))
  | createGameReject (game_id : Int) (reason : CreateGameRejectReason)
deriving DecidableEq, Repr

/-- `GameRegistryGuard::pre_check`. -/
def GameRegistryGuard.pre_check (games : List (Int × GameSession))
    (game_id : Int) : Except NodeError Unit :=
  match alookup games game_id with
  | some game =>
    if game.status ≠ GameStatus.Created then .error .GameExists else .ok ()
  | none => .ok ()

/-- `GameRegistryGuard::register`: insert (or overwrite) the fresh session,
bumping the `GAME_SESSIONS` counter only when the key is new. -/
def GameRegistryGuard.register (games : List (Int × GameSession)) (m : Metrics)
    (game : Game) : List (Int × GameSession) × Metrics :=
  let session := GameSession.new game
  let existed := (alookup games game.id).isSome
  (ainsert games game.id session,
   if existed then m else { m with game_sessions := m.game_sessions + 1 })

/-- `SessionStore`: the pending registry, the key set of the
connected-player index (only `contains_key` is consulted by this handler;
the `ConnectedPlayer` values are connection handles outside this model) and
the game registry. -/
structure SessionStore where
  pending_players : PendingPlayerRegistry
  connected_players : List Int
  games : List (Int × GameSession)
deriving DecidableEq, Repr

/-- `PacketControllerCreateGame`. -/
structure PacketControllerCreateGame where
  game : Option Game
deriving DecidableEq, Repr

/-- The bound player identifiers of a descriptor, in slot order
(`slots.iter().filter_map(|s| s.player.as_ref().map(|p| p.player_id))`). -/
def boundPlayerIds (game : Game) : List Int :=
  game.slots.filterMap (fun s => s.player.map (fun p => p.player_id))

/-- `SessionStore::handle_controller_create_game`.  `mint i` supplies the
i-th fresh random token of this call (`PlayerToken::new`).  Returns the
protocol result together with the updated store and counters. -/
def SessionStore.handle_controller_create_game (mint : Nat → PlayerToken)
    (store : SessionStore) (m : Metrics) (packet : PacketControllerCreateGame) :
    Except NodeError NodeFrame × SessionStore × Metrics :=
  match packet.game with
  | none => (.error .PacketFieldNotSet, store, m)
  | some game =>
    let game_id := game.id
    let player_ids := boundPlayerIds game
    if player_ids.isEmpty then (.error .NoPlayer, store, m)
    else
      match player_ids.find? (fun id => decide (id ∈ store.connected_players)) with
      | some id => (.error (.PlayerBusy id), store, m)
      | none =>
        match GameRegistryGuard.pre_check store.games game_id with
        | .error e =>
          match e with
          | .GameExists => (.ok (.createGameReject game_id .GameExists), store, m)
          | .PlayerBusy _ => (.ok (.createGameReject game_id .PlayerBusy), store, m)
          | e2 => (.error e2, store, m)
        | .ok _ =>
          let players := game.slots.filterMap (fun s => s.player)
          let pending := players.enum.map
            (fun ip => (mint ip.1, PendingPlayer.mk ip.2.player_id game_id))
          let player_tokens := pending.map (fun tp => (tp.2.player_id, tp.1))
          let reg := store.pending_players.register m pending
          let greg := GameRegistryGuard.register store.games reg.2.1 game
          let m3 := { greg.2 with game_sessions := greg.2.game_sessions + 1 }
          let m4 := { m3 with pending_player_tokens :=
            m3.pending_player_tokens + player_tokens.length }
          (.ok (.createGameAccept game_id player_tokens),
           { store with pending_players := reg.1, games := greg.1 }, m4)

/-- Dichotomy of `pre_check`: it can only succeed or report `GameExists`. -/
theorem pre_check_ok_or_game_exists (games : List (Int × GameSession))
    (game_id : Int) :
    GameRegistryGuard.pre_check games game_id = .ok () ∨
      GameRegistryGuard.pre_check games game_id = .error NodeError.GameExists := by
  unfold GameRegistryGuard.pre_check
  cases alookup games game_id with
  | none => exact Or.inl rfl
  | some s =>
    by_cases hs : s.status = GameStatus.Created
    · exact Or.inl (by simp [hs])
    · exact Or.inr (by simp [hs])

/-- C1: evaluation of the spec's own scenario.  Starting from a fresh
store, create-game(game=1, players=[7]) mints token 100, then
create-game(game=2, players=[7]) mints token 200.  The second registry call
reports no stale pending player, token 100 still resolves in the pending
map afterwards, and the player-token index is still empty: the
`contains_key` guard in `PendingPlayerRegistry::register` never lets the
`Entry::Vacant` arm run, so the first token for a player is never indexed
and the single-token-per-player invariant is never enforced. -/
theorem c1_stale_eviction_never_fires :
    (let store0 : SessionStore := ⟨PendingPlayerRegistry.new, [], []⟩
     let m0 : Metrics := ⟨0, 0⟩
     let p1 : PacketControllerCreateGame := ⟨some ⟨1, [⟨some ⟨7⟩⟩]⟩⟩
     let p2 : PacketControllerCreateGame := ⟨some ⟨2, [⟨some ⟨7⟩⟩]⟩⟩
     let r1 := SessionStore.handle_controller_create_game (fun _ => 100) store0 m0 p1
     let r2 := SessionStore.handle_controller_create_game (fun _ => 200) r1.2.1 r1.2.2 p2
     (r1.2.1.pending_players.register r1.2.2 [(200, ⟨7, 2⟩)]).2.2 = [] ∧
       alookup r2.2.1.pending_players.map 100 = some ⟨7, 1⟩ ∧
       alookup r2.2.1.pending_players.map 200 = some ⟨7, 2⟩ ∧
       r2.2.1.pending_players.player_token = []) :=
  ⟨rfl, rfl, rfl, rfl⟩

/-- C5: evaluation of the `GAME_SESSIONS` counter across two successful
create-game calls for the same identifier.  From a fresh store (counter 0),
creating game 1 succeeds and leaves the counter at 2 (one unconditional
increment in the accept path plus one new-key increment inside
`GameRegistryGuard::register`), and re-creating the still-`Created` game 1
succeeds and leaves it at 3 (the unconditional increment fires again),
whereas the claim requires 1 after the first call and 1 after the second. -/
theorem c5_game_sessions_counter_evaluation :
    (let store0 : SessionStore := ⟨PendingPlayerRegistry.new, [], []⟩
     let m0 : Metrics := ⟨0, 0⟩
     let p1 : PacketControllerCreateGame := ⟨some ⟨1, [⟨some ⟨7⟩⟩]⟩⟩
     let r1 := SessionStore.handle_controller_create_game (fun _ => 100) store0 m0 p1
     let r2 := SessionStore.handle_controller_create_game (fun _ => 200) r1.2.1 r1.2.2 p1
     r1.1 = Except.ok (NodeFrame.createGameAccept 1 [(7, 100)]) ∧
       r1.2.2.game_sessions = 2 ∧
       r2.1 = Except.ok (NodeFrame.createGameAccept 1 [(7, 200)]) ∧
       r2.2.2.game_sessions = 3) :=
  ⟨rfl, rfl, rfl, rfl⟩

/-- C8: a create-game descriptor binding zero players fails with the
`NoPlayer` error and leaves the store (pending registry, connected-player
index, game registry) and the counters untouched. -/
theorem c8_no_player_error_without_mutation (mint : Nat → PlayerToken)
    (store : SessionStore) (m : Metrics) (packet : PacketControllerCreateGame)
    (game : Game) (hgame : packet.game = some game)
    (hempty : boundPlayerIds game = []) :
    SessionStore.handle_controller_create_game mint store m packet =
      (.error .NoPlayer, store, m) := by
  unfold SessionStore.handle_controller_create_game
  rw [hgame]
  simp [hempty]

/-- Witness for C8 at a concrete empty-slot request. -/
theorem c8_no_player_error_without_mutation_witness :
    SessionStore.handle_controller_create_game (fun _ => 0)
        ⟨PendingPlayerRegistry.new, [], []⟩ ⟨0, 0⟩ ⟨some ⟨1, [⟨none⟩]⟩⟩ =
      (.error .NoPlayer, ⟨PendingPlayerRegistry.new, [], []⟩, ⟨0, 0⟩) :=
  c8_no_player_error_without_mutation (fun _ => 0)
    ⟨PendingPlayerRegistry.new, [], []⟩ ⟨0, 0⟩ ⟨some ⟨1, [⟨none⟩]⟩⟩ ⟨1, [⟨none⟩]⟩
    rfl rfl

/-- C2 as stated is false at this input: with player 7 already connected,
the handler returns the hard error `Err(PlayerBusy(7))` — not an `Ok`
structured reject frame carrying a `PlayerBusy` reason. -/
theorem c2_busy_player_yields_error_not_reject_frame :
    (SessionStore.handle_controller_create_game (fun _ => 0)
        ⟨PendingPlayerRegistry.new, [7], []⟩ ⟨0, 0⟩ ⟨some ⟨1, [⟨some ⟨7⟩⟩]⟩⟩).1 =
      Except.error (NodeError.PlayerBusy 7) := rfl

/-- C2 (amended): when a bound player is already connected, the handler
fails with the hard `PlayerBusy` error naming the first such player in slot
order, and neither the pending registry, the connected-player index, the
game registry nor the counters are mutated. -/
theorem c2_busy_player_hard_error_no_mutation (mint : Nat → PlayerToken)
    (store : SessionStore) (m : Metrics) (packet : PacketControllerCreateGame)
    (game : Game) (busy : Int) (hgame : packet.game = some game)
    (hbusy : (boundPlayerIds game).find?
        (fun id => decide (id ∈ store.connected_players)) = some busy) :
    SessionStore.handle_controller_create_game mint store m packet =
      (.error (.PlayerBusy busy), store, m) := by
  unfold SessionStore.handle_controller_create_game
  rw [hgame]
  have hne : (boundPlayerIds game).isEmpty = false := by
    cases h : boundPlayerIds game with
    | nil => rw [h] at hbusy; simp [List.find?] at hbusy
    | cons a t => simp
  simp [hne, hbusy]

/-- Witness for the amended C2 at a concrete busy player. -/
theorem c2_busy_player_hard_error_no_mutation_witness :
    SessionStore.handle_controller_create_game (fun _ => 0)
        ⟨PendingPlayerRegistry.new, [7], []⟩ ⟨0, 0⟩ ⟨some ⟨1, [⟨some ⟨7⟩⟩]⟩⟩ =
      (.error (.PlayerBusy 7), ⟨PendingPlayerRegistry.new, [7], []⟩, ⟨0, 0⟩) :=
  c2_busy_player_hard_error_no_mutation (fun _ => 0)
    ⟨PendingPlayerRegistry.new, [7], []⟩ ⟨0, 0⟩ ⟨some ⟨1, [⟨some ⟨7⟩⟩]⟩⟩
    ⟨1, [⟨some ⟨7⟩⟩]⟩ 7 rfl (by decide)

/-- C3: with the earlier validations passed (descriptor present, at least
one bound player, none of them connected), a game identifier registered
with a non-`Created` status makes the handler return an `Ok` reject frame
with reason `GameExists` and leave the store and the counters unchanged,
while an unregistered or still-`Created` identifier lets the call succeed
and the registry entry become the freshly built `GameSession`. -/
theorem c3_game_exists_reject_or_overwrite (mint : Nat → PlayerToken)
    (store : SessionStore) (m : Metrics) (packet : PacketControllerCreateGame)
    (game : Game) (hgame : packet.game = some game)
    (hplayers : (boundPlayerIds game).isEmpty = false)
    (hfree : (boundPlayerIds game).find?
        (fun id => decide (id ∈ store.connected_players)) = none) :
    (∀ sess, alookup store.games game.id = some sess →
      sess.status ≠ GameStatus.Created →
      SessionStore.handle_controller_create_game mint store m packet =
        (.ok (.createGameReject game.id .GameExists), store, m)) ∧
    ((alookup store.games game.id = none ∨
        (∃ sess, alookup store.games game.id = some sess ∧
          sess.status = GameStatus.Created)) →
      (∃ toks, (SessionStore.handle_controller_create_game mint store m packet).1 =
        Except.ok (.createGameAccept game.id toks)) ∧
      alookup (SessionStore.handle_controller_create_game mint store m
          packet).2.1.games game.id = some (GameSession.new game)) := by
  constructor
  · intro sess hsess hstatus
    have hpc : GameRegistryGuard.pre_check store.games game.id =
        .error NodeError.GameExists := by
      unfold GameRegistryGuard.pre_check
      rw [hsess]
      simp [hstatus]
    unfold SessionStore.handle_controller_create_game
    rw [hgame]
    simp [hplayers, hfree, hpc]
  · intro hok
    have hpc : GameRegistryGuard.pre_check store.games game.id = .ok () := by
      unfold GameRegistryGuard.pre_check
      rcases hok with hnone | ⟨sess, hsess, hstatus⟩
      · rw [hnone]
      · rw [hsess]; simp [hstatus]
    unfold SessionStore.handle_controller_create_game
    rw [hgame]
    simp only [hplayers, hfree, hpc, Bool.false_eq_true, if_false]
    refine ⟨⟨_, rfl⟩, ?_⟩
    simp [GameRegistryGuard.register, alookup_ainsert]

/-- Witness for C3 at a concrete store without a registered game. -/
theorem c3_game_exists_reject_or_overwrite_witness :
    (∀ sess,
      alookup (SessionStore.mk PendingPlayerRegistry.new [] []).games
          (Game.mk 1 [⟨some ⟨7⟩⟩]).id = some sess →
      sess.status ≠ GameStatus.Created →
      SessionStore.handle_controller_create_game (fun _ => 0)
          ⟨PendingPlayerRegistry.new, [], []⟩ ⟨0, 0⟩ ⟨some ⟨1, [⟨some ⟨7⟩⟩]⟩⟩ =
        (.ok (.createGameReject (Game.mk 1 [⟨some ⟨7⟩⟩]).id .GameExists),
         ⟨PendingPlayerRegistry.new, [], []⟩, ⟨0, 0⟩)) ∧
    ((alookup (SessionStore.mk PendingPlayerRegistry.new [] []).games
        (Game.mk 1 [⟨some ⟨7⟩⟩]).id = none ∨
      (∃ sess, alookup (SessionStore.mk PendingPlayerRegistry.new [] []).games
          (Game.mk 1 [⟨some ⟨7⟩⟩]).id = some sess ∧
        sess.status = GameStatus.Created)) →
      (∃ toks, (SessionStore.handle_controller_create_game (fun _ => 0)
          ⟨PendingPlayerRegistry.new, [], []⟩ ⟨0, 0⟩
          ⟨some ⟨1, [⟨some ⟨7⟩⟩]⟩⟩).1 =
        Except.ok (.createGameAccept (Game.mk 1 [⟨some ⟨7⟩⟩]).id toks)) ∧
      alookup (SessionStore.handle_controller_create_game (fun _ => 0)
          ⟨PendingPlayerRegistry.new, [], []⟩ ⟨0, 0⟩
          ⟨some ⟨1, [⟨some ⟨7⟩⟩]⟩⟩).2.1.games (Game.mk 1 [⟨some ⟨7⟩⟩]).id =
        some (GameSession.new (Game.mk 1 [⟨some ⟨7⟩⟩]))) :=
  c3_game_exists_reject_or_overwrite (fun _ => 0)
    ⟨PendingPlayerRegistry.new, [], []⟩ ⟨0, 0⟩ ⟨some ⟨1, [⟨some ⟨7⟩⟩]⟩⟩
    ⟨1, [⟨some ⟨7⟩⟩]⟩ rfl (by decide) (by decide)

/-- C9: `GameRegistryGuard::pre_check` returns only `Ok` or
`Err(GameExists)` for every registry state, so the `PlayerBusy` arm of the
handler's pre-check error match is unreachable and the handler never
produces a `PlayerBusy` reject frame. -/
theorem c9_pre_check_never_player_busy :
    (∀ games game_id, GameRegistryGuard.pre_check games game_id = .ok () ∨
      GameRegistryGuard.pre_check games game_id = .error NodeError.GameExists) ∧
    (∀ mint store m packet game_id,
      (SessionStore.handle_controller_create_game mint store m packet).1 ≠
        Except.ok (NodeFrame.createGameReject game_id
          CreateGameRejectReason.PlayerBusy)) := by
  refine ⟨pre_check_ok_or_game_exists, ?_⟩
  intro mint store m packet game_id
  unfold SessionStore.handle_controller_create_game
  cases hg : packet.game with
  | none => simp
  | some game =>
    by_cases he : (boundPlayerIds game).isEmpty
    · simp [he]
    · cases hf : (boundPlayerIds game).find?
          (fun id => decide (id ∈ store.connected_players)) with
      | some id => simp [he, hf]
      | none =>
        rcases pre_check_ok_or_game_exists store.games game.id with hpc | hpc <;>
          simp [he, hf, hpc]

/-! ### Lobby connection loop (`crates/lobby/src/connect/mod.rs`)

The per-connection `handle_stream` loop, as the explicit event/state
machine the spec prescribes: the async runtime delivers the four select
events in arrival order, and the loop body is a pure transition function.
Every spawned ping-timeout task gets a fresh identifier; `armed` is the id
held by the `ping_timout_abort` handle (set on arming, taken and aborted on
any inbound frame).  Trace validity captures the runtime: a timeout task
can only signal while it is the armed, un-aborted task, and the interval
timer (30 s, recreated at every iteration) cannot fire while a 5-second
timeout is pending, since that timeout either signals or is aborted by an
intervening event first. -/

/-- Terminal and running phases of `handle_stream`. -/
inductive LoopPhase
  | Running
  | TimedOut
  | SenderBroken
  | QueueClosed
  | SendFailed
  | StreamError
deriving DecidableEq, Repr

/-- An inbound frame: a pong carrying its echoed millisecond stamp, or any
other frame kind (ignored by this loop). -/
inductive InFrame
  | pong (ms : Nat)
  | other
deriving DecidableEq, Repr

/-- A message dequeued from the player's outbound queue. -/
inductive OutMsg
  | frame
  | frames
  | broken
deriving DecidableEq, Repr

/-- The four select event sources of the loop.  `now` is the connection
stopwatch's elapsed milliseconds at the moment the event is processed, and
`sendOk` the success of the wire send the branch performs. -/
inductive LoopEvent
  | timerFired (now : Nat) (sendOk : Bool)
  | timeoutSignaled (id : Nat)
  | outbound (msg : OutMsg) (sendOk : Bool)
  | queueClosed
  | inboundFrame (now : Nat) (f : InFrame)
  | inboundError
deriving DecidableEq, Repr

/-- The state of one connection loop: its phase, the id of the armed
ping-timeout task (the `ping_timout_abort` handle), a fresh-id supply for
spawned timeout tasks, and the last round-trip latency logged by the pong
branch. -/
structure ConnState where
  phase : LoopPhase
  armed : Option Nat
  nextId : Nat
  lastLatency : Option Nat
deriving DecidableEq, Repr

/-- The state of a freshly accepted connection entering the loop. -/
def ConnState.initial : ConnState := ⟨LoopPhase.Running, none, 0, none⟩

/-- The loop body of `handle_stream`: one select event consumed in arrival
order.  A terminal phase absorbs every event (the loop has returned). -/
def connStep (s : ConnState) (e : LoopEvent) : ConnState :=
  if s.phase ≠ LoopPhase.Running then s else
  match e with
  | .timerFired _ sendOk =>
    if sendOk then { s with armed := some s.nextId, nextId := s.nextId + 1 }
    else { s with phase := .SendFailed }
  | .timeoutSignaled _ => { s with phase := .TimedOut }
  | .outbound msg sendOk =>
    match msg with
    | .broken => { s with phase := .SenderBroken }
    | _ => if sendOk then s else { s with phase := .SendFailed }
  | .queueClosed => { s with phase := .QueueClosed }
  | .inboundFrame now f =>
    let s2 := { s with armed := none }
    match f with
    | .pong ms => { s2 with lastLatency := some (now - ms) }
    | .other => s2
  | .inboundError => { s with phase := .StreamError, armed := none }

/-- Events the runtime can deliver in state `s`: a timeout task signals
only while it is the armed, un-aborted task, and the interval timer fires
only with no timeout pending (its 5-second window elapses strictly inside
the 30-second interval, which every event resets). -/
def ValidEvent (s : ConnState) : LoopEvent → Prop
  | .timerFired _ _ => s.armed = none
  | .timeoutSignaled id => s.armed = some id
  | _ => True

/-- A deliverable event trace from a state. -/
def ValidTrace : ConnState → List LoopEvent → Prop
  | _, [] => True
  | s, e :: tr => ValidEvent s e ∧ ValidTrace (connStep s e) tr

/-- Run the loop over a trace. -/
def runTrace (s : ConnState) (tr : List LoopEvent) : ConnState :=
  tr.foldl connStep s

/-- A step preserves "id is below the fresh supply and not armed": the
timer arms only the fresh id, every other branch keeps or clears the armed
slot. -/
theorem connStep_preserves_unarmed (s : ConnState) (e : LoopEvent) (id : Nat)
    (hlt : id < s.nextId) (harm : s.armed ≠ some id) :
    id < (connStep s e).nextId ∧ (connStep s e).armed ≠ some id := by
  unfold connStep
  by_cases hp : s.phase = LoopPhase.Running
  · rw [if_neg (by simp [hp])]
    cases e with
    | timerFired now sendOk =>
      cases sendOk
      · exact ⟨hlt, harm⟩
      · refine ⟨?_, ?_⟩
        · show id < s.nextId + 1
          omega
        · show some s.nextId ≠ some id
          intro hc
          have := Option.some.inj hc
          omega
    | timeoutSignaled i => exact ⟨hlt, harm⟩
    | outbound msg sendOk =>
      cases msg <;> cases sendOk <;> exact ⟨hlt, harm⟩
    | queueClosed => exact ⟨hlt, harm⟩
    | inboundFrame now f =>
      cases f <;> exact ⟨hlt, by simp⟩
    | inboundError => exact ⟨hlt, by simp⟩
  · rw [if_pos hp]
    exact ⟨hlt, harm⟩

/-- An id strictly below the fresh supply, not currently armed, can never
signal in a deliverable trace. -/
theorem no_stale_timeout_signal (id : Nat) :
    ∀ tr s, id < s.nextId → s.armed ≠ some id → ValidTrace s tr →
      LoopEvent.timeoutSignaled id ∉ tr := by
  intro tr
  induction tr with
  | nil => intro s _ _ _ hmem; simp at hmem
  | cons e tr ih =>
    intro s hlt harm hv hmem
    obtain ⟨hve, hvt⟩ := hv
    rcases List.mem_cons.mp hmem with hhead | htail
    · subst hhead
      exact harm hve
    · obtain ⟨hlt2, harm2⟩ := connStep_preserves_unarmed s e id hlt harm
      exact ih (connStep s e) hlt2 harm2 hvt htail

/-- A step lands in `TimedOut` only from `TimedOut` or on a timeout
signal. -/
theorem connStep_timed_out (s : ConnState) (e : LoopEvent)
    (h : (connStep s e).phase = LoopPhase.TimedOut) :
    s.phase = LoopPhase.TimedOut ∨ ∃ j, e = LoopEvent.timeoutSignaled j := by
  unfold connStep at h
  by_cases hp : s.phase = LoopPhase.Running
  · rw [if_neg (by simp [hp])] at h
    cases e with
    | timerFired now sendOk =>
      cases sendOk
      · have h2 : LoopPhase.SendFailed = LoopPhase.TimedOut := h
        exact absurd h2 (by decide)
      · have h2 : s.phase = LoopPhase.TimedOut := h
        rw [hp] at h2
        exact absurd h2 (by decide)
    | timeoutSignaled i => exact Or.inr ⟨i, rfl⟩
    | outbound msg sendOk =>
      cases msg with
      | broken =>
        have h2 : LoopPhase.SenderBroken = LoopPhase.TimedOut := h
        exact absurd h2 (by decide)
      | frame =>
        cases sendOk
        · have h2 : LoopPhase.SendFailed = LoopPhase.TimedOut := h
          exact absurd h2 (by decide)
        · have h2 : s.phase = LoopPhase.TimedOut := h
          rw [hp] at h2
          exact absurd h2 (by decide)
      | frames =>
        cases sendOk
        · have h2 : LoopPhase.SendFailed = LoopPhase.TimedOut := h
          exact absurd h2 (by decide)
        · have h2 : s.phase = LoopPhase.TimedOut := h
          rw [hp] at h2
          exact absurd h2 (by decide)
    | queueClosed =>
      have h2 : LoopPhase.QueueClosed = LoopPhase.TimedOut := h
      exact absurd h2 (by decide)
    | inboundFrame now f =>
      cases f with
      | pong ms =>
        have h2 : s.phase = LoopPhase.TimedOut := h
        rw [hp] at h2
        exact absurd h2 (by decide)
      | other =>
        have h2 : s.phase = LoopPhase.TimedOut := h
        rw [hp] at h2
        exact absurd h2 (by decide)
    | inboundError =>
      have h2 : LoopPhase.StreamError = LoopPhase.TimedOut := h
      exact absurd h2 (by decide)
  · rw [if_pos hp] at h
    exact Or.inl h

/-- Reaching `TimedOut` requires a timeout signal in the trace. -/
theorem timed_out_needs_signal :
    ∀ tr s, (runTrace s tr).phase = LoopPhase.TimedOut →
      s.phase = LoopPhase.TimedOut ∨ ∃ j, LoopEvent.timeoutSignaled j ∈ tr := by
  intro tr
  induction tr with
  | nil => intro s h; exact Or.inl h
  | cons e tr ih =>
    intro s h
    rcases ih (connStep s e) h with hstep | ⟨j, hj⟩
    · rcases connStep_timed_out s e hstep with hs | ⟨j, hj⟩
      · exact Or.inl hs
      · exact Or.inr ⟨j, by simp [hj]⟩
    · exact Or.inr ⟨j, List.mem_cons_of_mem _ hj⟩

/-- C7: while the loop is running with an armed ping-timeout task, the
arrival of any inbound frame — of any kind — disarms and aborts it; from
then on that task can never signal in any deliverable trace, so the only
way the loop can still reach `TimedOut` is a signal from a timeout armed
later, never the one armed before the frame. -/
theorem c7_inbound_frame_aborts_pending_timeout (s : ConnState) (id : Nat)
    (now : Nat) (f : InFrame) (hrun : s.phase = LoopPhase.Running)
    (harmed : s.armed = some id) (hwf : id < s.nextId) :
    (connStep s (.inboundFrame now f)).armed = none ∧
    (∀ tr, ValidTrace (connStep s (.inboundFrame now f)) tr →
      LoopEvent.timeoutSignaled id ∉ tr) ∧
    (∀ tr, ValidTrace (connStep s (.inboundFrame now f)) tr →
      (runTrace (connStep s (.inboundFrame now f)) tr).phase = LoopPhase.TimedOut →
      ∃ j, j ≠ id ∧ LoopEvent.timeoutSignaled j ∈ tr) := by
  have hdis : (connStep s (.inboundFrame now f)).armed = none := by
    unfold connStep
    rw [if_neg (by simp [hrun])]
    cases f <;> rfl
  have hnext : (connStep s (.inboundFrame now f)).nextId = s.nextId := by
    unfold connStep
    rw [if_neg (by simp [hrun])]
    cases f <;> rfl
  have hphase : (connStep s (.inboundFrame now f)).phase = LoopPhase.Running := by
    unfold connStep
    rw [if_neg (by simp [hrun])]
    cases f <;> simpa using hrun
  refine ⟨hdis, ?_, ?_⟩
  · intro tr hv
    exact no_stale_timeout_signal id tr _ (by omega) (by simp [hdis]) hv
  · intro tr hv hto
    rcases timed_out_needs_signal tr _ hto with hc | ⟨j, hj⟩
    · rw [hphase] at hc; exact absurd hc (by simp)
    · refine ⟨j, ?_, hj⟩
      intro hji
      subst hji
      exact no_stale_timeout_signal j tr _ (by omega) (by simp [hdis]) hv hj

/-- Witness for C7 at a concrete armed state and an arbitrary-kind frame. -/
theorem c7_inbound_frame_aborts_pending_timeout_witness :
    (connStep ⟨LoopPhase.Running, some 0, 1, none⟩
        (.inboundFrame 35 InFrame.other)).armed = none ∧
    (∀ tr, ValidTrace (connStep ⟨LoopPhase.Running, some 0, 1, none⟩
        (.inboundFrame 35 InFrame.other)) tr →
      LoopEvent.timeoutSignaled 0 ∉ tr) ∧
    (∀ tr, ValidTrace (connStep ⟨LoopPhase.Running, some 0, 1, none⟩
        (.inboundFrame 35 InFrame.other)) tr →
      (runTrace (connStep ⟨LoopPhase.Running, some 0, 1, none⟩
        (.inboundFrame 35 InFrame.other)) tr).phase = LoopPhase.TimedOut →
      ∃ j, j ≠ 0 ∧ LoopEvent.timeoutSignaled j ∈ tr) :=
  c7_inbound_frame_aborts_pending_timeout ⟨LoopPhase.Running, some 0, 1, none⟩
    0 35 InFrame.other rfl rfl (by decide)

/-- C6: the pong branch logs round-trip latency as the stopwatch's elapsed
milliseconds minus the pong's echoed stamp under saturating subtraction
(truncated subtraction on naturals): whenever the echoed stamp exceeds the
elapsed time, the computed latency is exactly 0 — never negative, never
wrapped. -/
theorem c6_pong_latency_saturating (s : ConnState) (now ms : Nat)
    (hrun : s.phase = LoopPhase.Running) :
    (connStep s (.inboundFrame now (.pong ms))).lastLatency = some (now - ms) ∧
    (now < ms → (connStep s (.inboundFrame now (.pong ms))).lastLatency = some 0) := by
  have hstep : (connStep s (.inboundFrame now (.pong ms))).lastLatency
      = some (now - ms) := by
    unfold connStep
    rw [if_neg (by simp [hrun])]
  refine ⟨hstep, fun hlt => ?_⟩
  rw [hstep, Nat.sub_eq_zero_of_le (Nat.le_of_lt hlt)]

/-- Witness for C6: the spec's skew scenario, a pong echoing a stamp 3 ms
ahead of the ping stamp the stopwatch read. -/
theorem c6_pong_latency_saturating_witness :
    (connStep ⟨LoopPhase.Running, some 0, 1, none⟩
        (.inboundFrame 30000 (.pong 30003))).lastLatency = some (30000 - 30003) ∧
    (30000 < 30003 → (connStep ⟨LoopPhase.Running, some 0, 1, none⟩
        (.inboundFrame 30000 (.pong 30003))).lastLatency = some 0) :=
  c6_pong_latency_saturating ⟨LoopPhase.Running, some 0, 1, none⟩ 30000 30003 rfl

end Flo
